import Mathlib

/-!
Digit sum by a closed form (`input.c`)

A shallow embedding of the C program `input.c`: the function
`sum_digits_linear` and the interactive `main`.

* A C `int` is a mathematical integer in `[INT_MIN, INT_MAX]`; every arithmetic
  operator is followed by an explicit reduction into the 32-bit two's-complement
  range (`wrap32`), so that overflow is visible in the model.
* C `/` and `%` truncate toward zero: `Int.tdiv` and `Int.tmod`.
* `main` is modelled by explicit state passing over a `World` that records the
  bytes written to standard output and the calls made to `sum_digits_linear`.
* The variable `num` of `main` is an `int`: what `scanf` parses is stored in it
  reduced to 32 bits, so that a value in `[INT_MIN, INT_MAX]` is stored as it
  is and a larger token reaches the range check as the `int` it becomes.
-/

namespace Legendre

/-! ## C `int` arithmetic -/

/-- Smallest value of a 32-bit `int`. -/
def INT_MIN : Int := -2147483648

/-- Largest value of a 32-bit `int`. -/
def INT_MAX : Int := 2147483647

/-- Reduction of an integer into the 32-bit two's-complement range. -/
def wrap32 (n : Int) : Int := (n + 2147483648) % 4294967296 - 2147483648

/-- C `a + b` on `int`. -/
def c_add (a b : Int) : Int := wrap32 (a + b)

/-- C `a - b` on `int`. -/
def c_sub (a b : Int) : Int := wrap32 (a - b)

/-- C `a * b` on `int`. -/
def c_mul (a b : Int) : Int := wrap32 (a * b)

/-- C `a / b` on `int`: the quotient truncated toward zero. -/
def c_div (a b : Int) : Int := wrap32 (Int.tdiv a b)

/-- C `a % b` on `int`: the remainder of the truncating division. -/
def c_mod (a b : Int) : Int := wrap32 (Int.tmod a b)

/-- C `a > b`: an `int` that is 1 or 0. -/
def c_gt (a b : Int) : Int := if a > b then 1 else 0

/-- C `a < b`: an `int` that is 1 or 0. -/
def c_lt (a b : Int) : Int := if a < b then 1 else 0

/-- C bitwise `a & b` on `int` (two's complement). -/
def c_band (a b : Int) : Int := Int.land a b

/-- C short-circuit `a && b`: the second operand counts only when the first is nonzero. -/
def c_logand (a b : Int) : Int := if a ≠ 0 then (if b ≠ 0 then 1 else 0) else 0

/-! ## `sum_digits_linear` -/

/-- The function `sum_digits_linear` of `input.c`:
`x - (((x - x%10)/10 + (x - x%100)/100 + (x - x%1000)/1000) * 9)`. -/
def sum_digits_linear (x : Int) : Int :=
  c_sub x
    (c_mul
      (c_add
        (c_add (c_div (c_sub x (c_mod x 10)) 10)
               (c_div (c_sub x (c_mod x 100)) 100))
        (c_div (c_sub x (c_mod x 1000)) 1000))
      9)

/-- Reference digit sum: repeated extraction of the last digit with `% 10`
and removal of it with `/ 10`, independent of the closed form. -/
def digit_sum_ref (n : Nat) : Nat :=
  if h : n = 0 then 0 else n % 10 + digit_sum_ref (n / 10)
termination_by n
decreasing_by omega

/-! ## `main` -/

/-- What the program has done so far: the text written to standard output and
the arguments with which `sum_digits_linear` has been called. -/
structure World where
  stdout : String
  calls : List Int
  deriving DecidableEq, Repr

/-- The world before `main` starts. -/
def World.init : World := { stdout := "", calls := [] }

/-- The conversion `%d` of `printf`: the decimal rendering of an `int`. -/
def fmt_d (n : Int) : String := toString n

/-- Writing a string to standard output. -/
def printf (s : String) (w : World) : World := { w with stdout := w.stdout ++ s }

/-- The call `scanf("%d", &num)`: `input` is the integer the conversion parsed
from standard input, or `none` when it parsed none (a non-numeric token, end of
stream), in which case the variable is left as it was. The parsed integer is
stored in the 32-bit `int num`: a value in `[INT_MIN, INT_MAX]` as it is, a
value outside reduced to 32 bits. -/
def scanf_d (input : Option Int) (num : Int) : Int :=
  match input with
  | some v => wrap32 v
  | none => num

/-- A call of `sum_digits_linear` from `main`, recorded in the world. -/
def call_sum_digits_linear (x : Int) (w : World) : Int × World :=
  (sum_digits_linear x, { w with calls := w.calls ++ [x] })

/-- The prompt that `main` prints first. -/
def prompt : String := "Enter a number from [0-9999]: "

/-- The format of the result line, up to its `%d`. -/
def sum_msg : String := "The sum of all digits in your number amounts to: "

/-- The line printed on success for the value `n`. -/
def sum_line (n : Int) : String := sum_msg ++ fmt_d n ++ "\n"

/-- The line printed when the range check fails. -/
def error_line : String := "Input error\n"

/-- The condition of the `if` in `main`: `num>0 & num<10000`. -/
def range_check (num : Int) : Int := c_band (c_gt num 0) (c_lt num 10000)

/-- The function `main` of `input.c`, run on what `scanf` parses. -/
def main (input : Option Int) : World :=
  let num : Int := 0
  let w := printf prompt World.init
  let num := scanf_d input num
  if range_check num ≠ 0 then
    let (r, w) := call_sum_digits_linear num w
    printf (sum_line r) w
  else
    printf error_line w

/-- The world in which `main` ends after a successful range check on `x`. -/
def accepted (x : Int) : World :=
  { stdout := prompt ++ sum_line (sum_digits_linear x), calls := [x] }

/-- The world in which `main` ends after a failed range check. -/
def rejected : World := { stdout := prompt ++ error_line, calls := [] }

/-! ## Evaluation over the integers, and with overflow as failure -/

/-- The expression of `sum_digits_linear` over the unbounded integers. -/
def sum_digits_linear_ideal (x : Int) : Int :=
  x - ((Int.tdiv (x - Int.tmod x 10) 10 + Int.tdiv (x - Int.tmod x 100) 100
        + Int.tdiv (x - Int.tmod x 1000) 1000) * 9)

/-- Every value that the evaluation of `sum_digits_linear x` goes through, over
the unbounded integers: for each of 10, 100 and 1000 the remainder, the
difference and the quotient, then the two sums, the product by 9 and the final
difference. -/
def intermediates (x : Int) : List Int :=
  [Int.tmod x 10, x - Int.tmod x 10, Int.tdiv (x - Int.tmod x 10) 10,
   Int.tmod x 100, x - Int.tmod x 100, Int.tdiv (x - Int.tmod x 100) 100,
   Int.tmod x 1000, x - Int.tmod x 1000, Int.tdiv (x - Int.tmod x 1000) 1000,
   Int.tdiv (x - Int.tmod x 10) 10 + Int.tdiv (x - Int.tmod x 100) 100,
   Int.tdiv (x - Int.tmod x 10) 10 + Int.tdiv (x - Int.tmod x 100) 100
     + Int.tdiv (x - Int.tmod x 1000) 1000,
   (Int.tdiv (x - Int.tmod x 10) 10 + Int.tdiv (x - Int.tmod x 100) 100
     + Int.tdiv (x - Int.tmod x 1000) 1000) * 9,
   sum_digits_linear_ideal x]

/-- An integer as the value of an `int` expression: none when it is not
representable in 32 bits (signed overflow has no defined result in C). -/
def checked (n : Int) : Option Int :=
  if INT_MIN ≤ n ∧ n ≤ INT_MAX then some n else none

/-- C `a + b`, failing on overflow. -/
def ck_add (a b : Int) : Option Int := checked (a + b)

/-- C `a - b`, failing on overflow. -/
def ck_sub (a b : Int) : Option Int := checked (a - b)

/-- C `a * b`, failing on overflow. -/
def ck_mul (a b : Int) : Option Int := checked (a * b)

/-- C `a / b`, failing on a zero divisor and on a quotient out of range. -/
def ck_div (a b : Int) : Option Int :=
  if b = 0 then none else checked (Int.tdiv a b)

/-- C `a % b`, failing on a zero divisor and when `a / b` is out of range. -/
def ck_mod (a b : Int) : Option Int :=
  if b = 0 then none else (checked (Int.tdiv a b)).bind (fun _ => checked (Int.tmod a b))

/-- The function `sum_digits_linear` evaluated step by step, with no result as
soon as one operation overflows or divides by zero. -/
def sum_digits_linear_checked (x : Int) : Option Int :=
  (ck_mod x 10).bind fun r10 =>
  (ck_sub x r10).bind fun s10 =>
  (ck_div s10 10).bind fun q10 =>
  (ck_mod x 100).bind fun r100 =>
  (ck_sub x r100).bind fun s100 =>
  (ck_div s100 100).bind fun q100 =>
  (ck_add q10 q100).bind fun a1 =>
  (ck_mod x 1000).bind fun r1000 =>
  (ck_sub x r1000).bind fun s1000 =>
  (ck_div s1000 1000).bind fun q1000 =>
  (ck_add a1 q1000).bind fun a2 =>
  (ck_mul a2 9).bind fun p =>
  ck_sub x p

/-! ## Truncating division, and the absence of overflow -/

/-- A value inside the 32-bit range is left alone by `wrap32`. -/
theorem wrap32_of_range (n : Int) (h1 : INT_MIN ≤ n) (h2 : n ≤ INT_MAX) : wrap32 n = n := by
  unfold INT_MIN at h1
  unfold INT_MAX at h2
  unfold wrap32
  omega

/-- Truncating division by a positive number, in terms of the division that
rounds down: on a negative dividend, divide the opposite and negate. -/
theorem tdiv_tmod_cases (x m : Int) (hm : 0 < m) :
    (0 ≤ x ∧ Int.tdiv x m = x / m ∧ Int.tmod x m = x % m) ∨
    (x < 0 ∧ Int.tdiv x m = -((-x) / m) ∧ Int.tmod x m = -((-x) % m)) := by
  rcases le_or_lt 0 x with hx | hx
  · exact Or.inl ⟨hx, Int.tdiv_eq_ediv hx hm.le, Int.tmod_eq_emod hx hm.le⟩
  · refine Or.inr ⟨hx, ?_, ?_⟩
    · have h := Int.neg_tdiv (-x) m
      rw [neg_neg] at h
      rw [h, Int.tdiv_eq_ediv (by omega) hm.le]
    · have h := Int.tmod_def x m
      have h2 := Int.neg_tdiv (-x) m
      rw [neg_neg] at h2
      rw [h, h2, Int.tdiv_eq_ediv (by omega) hm.le, Int.emod_def]
      ring

/-- Removing the remainder first does not change the truncated quotient. -/
theorem sub_tmod_tdiv (x m : Int) (hm : m ≠ 0) :
    Int.tdiv (x - Int.tmod x m) m = Int.tdiv x m := by
  have h : x - Int.tmod x m = m * Int.tdiv x m := by
    have := Int.tmod_add_tdiv x m
    omega
  rw [h, Int.mul_tdiv_cancel_left _ hm]

/-- On a 32-bit `x` no operation of `sum_digits_linear` leaves the 32-bit range:
the function computes the expression of the source over the integers. -/
theorem sum_digits_linear_exact (x : Int) (h1 : INT_MIN ≤ x) (h2 : x ≤ INT_MAX) :
    sum_digits_linear x =
      x - ((Int.tdiv (x - Int.tmod x 10) 10 + Int.tdiv (x - Int.tmod x 100) 100
            + Int.tdiv (x - Int.tmod x 1000) 1000) * 9) := by
  have q10 := sub_tmod_tdiv x 10 (by decide)
  have q100 := sub_tmod_tdiv x 100 (by decide)
  have q1000 := sub_tmod_tdiv x 1000 (by decide)
  have c10 := tdiv_tmod_cases x 10 (by decide)
  have c100 := tdiv_tmod_cases x 100 (by decide)
  have c1000 := tdiv_tmod_cases x 1000 (by decide)
  unfold INT_MIN at h1
  unfold INT_MAX at h2
  have w : ∀ n : Int, -2147483648 ≤ n → n ≤ 2147483647 → wrap32 n = n := by
    intro n a b
    unfold wrap32
    omega
  have m10 : c_mod x 10 = Int.tmod x 10 := w _ (by omega) (by omega)
  have m100 : c_mod x 100 = Int.tmod x 100 := w _ (by omega) (by omega)
  have m1000 : c_mod x 1000 = Int.tmod x 1000 := w _ (by omega) (by omega)
  have s10 : c_sub x (c_mod x 10) = x - Int.tmod x 10 := by
    rw [m10]; exact w _ (by omega) (by omega)
  have s100 : c_sub x (c_mod x 100) = x - Int.tmod x 100 := by
    rw [m100]; exact w _ (by omega) (by omega)
  have s1000 : c_sub x (c_mod x 1000) = x - Int.tmod x 1000 := by
    rw [m1000]; exact w _ (by omega) (by omega)
  have d10 : c_div (c_sub x (c_mod x 10)) 10 = Int.tdiv (x - Int.tmod x 10) 10 := by
    rw [s10]; exact w _ (by omega) (by omega)
  have d100 : c_div (c_sub x (c_mod x 100)) 100 = Int.tdiv (x - Int.tmod x 100) 100 := by
    rw [s100]; exact w _ (by omega) (by omega)
  have d1000 : c_div (c_sub x (c_mod x 1000)) 1000 = Int.tdiv (x - Int.tmod x 1000) 1000 := by
    rw [s1000]; exact w _ (by omega) (by omega)
  unfold sum_digits_linear
  rw [d10, d100, d1000]
  have a1 : c_add (Int.tdiv (x - Int.tmod x 10) 10) (Int.tdiv (x - Int.tmod x 100) 100)
      = Int.tdiv (x - Int.tmod x 10) 10 + Int.tdiv (x - Int.tmod x 100) 100 :=
    w _ (by omega) (by omega)
  rw [a1]
  have a2 : c_add (Int.tdiv (x - Int.tmod x 10) 10 + Int.tdiv (x - Int.tmod x 100) 100)
      (Int.tdiv (x - Int.tmod x 1000) 1000)
      = Int.tdiv (x - Int.tmod x 10) 10 + Int.tdiv (x - Int.tmod x 100) 100
        + Int.tdiv (x - Int.tmod x 1000) 1000 :=
    w _ (by omega) (by omega)
  rw [a2]
  have a3 : c_mul (Int.tdiv (x - Int.tmod x 10) 10 + Int.tdiv (x - Int.tmod x 100) 100
        + Int.tdiv (x - Int.tmod x 1000) 1000) 9
      = (Int.tdiv (x - Int.tmod x 10) 10 + Int.tdiv (x - Int.tmod x 100) 100
        + Int.tdiv (x - Int.tmod x 1000) 1000) * 9 :=
    w _ (by omega) (by omega)
  rw [a3]
  exact w _ (by omega) (by omega)

/-- On a 32-bit `x`, `sum_digits_linear` is `x - 9 * (x/10 + x/100 + x/1000)`
with the truncating division of C. -/
theorem sum_digits_linear_closed (x : Int) (h1 : INT_MIN ≤ x) (h2 : x ≤ INT_MAX) :
    sum_digits_linear x = x - 9 * (Int.tdiv x 10 + Int.tdiv x 100 + Int.tdiv x 1000) := by
  rw [sum_digits_linear_exact x h1 h2, sub_tmod_tdiv x 10 (by decide),
    sub_tmod_tdiv x 100 (by decide), sub_tmod_tdiv x 1000 (by decide)]
  ring

/-! ## The reference digit sum -/

/-- One round of the extraction loop; it also holds at 0. -/
theorem digit_sum_ref_step (n : Nat) :
    digit_sum_ref n = n % 10 + digit_sum_ref (n / 10) := by
  by_cases h : n = 0
  · subst h
    rw [digit_sum_ref]
    simp
  · rw [digit_sum_ref]
    simp [h]

/-- Four rounds of the extraction loop. -/
theorem digit_sum_ref_unroll (n : Nat) :
    digit_sum_ref n =
      n % 10 + n / 10 % 10 + n / 100 % 10 + n / 1000 % 10 + digit_sum_ref (n / 10000) := by
  have e2 : n / 10 / 10 = n / 100 := by omega
  have e3 : n / 100 / 10 = n / 1000 := by omega
  have e4 : n / 1000 / 10 = n / 10000 := by omega
  rw [digit_sum_ref_step n, digit_sum_ref_step (n / 10), e2, digit_sum_ref_step (n / 100), e3,
    digit_sum_ref_step (n / 1000), e4]
  omega

/-- The digit sum of a number is at most the number. -/
theorem digit_sum_ref_le (n : Nat) : digit_sum_ref n ≤ n := by
  induction n using Nat.strong_induction_on with
  | _ n ih =>
    by_cases h : n = 0
    · subst h
      rw [digit_sum_ref]
      simp
    · rw [digit_sum_ref_step n]
      have := ih (n / 10) (by omega)
      omega

/-- A number below 10000 has at most four digits. -/
theorem digit_sum_ref_four (n : Nat) (h : n < 10000) :
    digit_sum_ref n = n % 10 + n / 10 % 10 + n / 100 % 10 + n / 1000 % 10 := by
  have h0 : n / 10000 = 0 := by omega
  rw [digit_sum_ref_unroll n, h0, digit_sum_ref]
  simp

/-- The closed form on a natural number below 10000 is its digit sum. -/
theorem sum_digits_linear_of_four_digits (n : Nat) (h : n < 10000) :
    sum_digits_linear (n : Int) = (digit_sum_ref n : Int) := by
  rw [sum_digits_linear_closed n (by unfold INT_MIN; omega) (by unfold INT_MAX; omega),
    digit_sum_ref_four n h]
  rcases tdiv_tmod_cases n 10 (by decide) with c10 | c10 <;>
  rcases tdiv_tmod_cases n 100 (by decide) with c100 | c100 <;>
  rcases tdiv_tmod_cases n 1000 (by decide) with c1000 | c1000 <;>
  omega

/-! ## Claims about `sum_digits_linear` -/

/-- C1: for every integer `x` with `0 ≤ x ≤ 9999`, `sum_digits_linear x` is the
sum of the base-10 digits of `x`, as computed by the reference definition that
extracts the digits one by one with `% 10` and `/ 10`. -/
theorem sum_digits_linear_eq_digit_sum_ref (x : Int) (h0 : 0 ≤ x) (h1 : x ≤ 9999) :
    sum_digits_linear x = (digit_sum_ref x.toNat : Int) := by
  have hx : (x.toNat : Int) = x := Int.toNat_of_nonneg h0
  have h := sum_digits_linear_of_four_digits x.toNat (by omega)
  rw [hx] at h
  exact h

/-- The instance of C1 at `x = 1234`. -/
theorem sum_digits_linear_eq_digit_sum_ref_witness :
    (0 : Int) ≤ 1234 ∧ (1234 : Int) ≤ 9999 ∧
      sum_digits_linear 1234 = (digit_sum_ref (Int.toNat 1234) : Int) :=
  ⟨by decide, by decide, sum_digits_linear_eq_digit_sum_ref 1234 (by decide) (by decide)⟩

/-- C4: for every integer `x` with `10000 ≤ x ≤ INT_MAX`, `sum_digits_linear x`
is not the sum of the base-10 digits of `x`; at 10000 the function returns 10
while the digit sum is 1. -/
theorem sum_digits_linear_ne_digit_sum_ref (x : Int) (h0 : 10000 ≤ x) (h1 : x ≤ INT_MAX) :
    sum_digits_linear x ≠ (digit_sum_ref x.toNat : Int) ∧
      sum_digits_linear 10000 = 10 ∧ digit_sum_ref 10000 = 1 := by
  refine ⟨?_, by decide, ?_⟩
  · have hx : x = (x.toNat : Int) := (Int.toNat_of_nonneg (by omega)).symm
    have hle := digit_sum_ref_le (x.toNat / 10000)
    rw [sum_digits_linear_closed x (by unfold INT_MIN; omega) h1, digit_sum_ref_unroll]
    rcases tdiv_tmod_cases x 10 (by decide) with c10 | c10 <;>
    rcases tdiv_tmod_cases x 100 (by decide) with c100 | c100 <;>
    rcases tdiv_tmod_cases x 1000 (by decide) with c1000 | c1000 <;>
    omega
  · rw [digit_sum_ref_unroll, digit_sum_ref_step]
    simp [digit_sum_ref]

/-- The instance of C4 at `x = 10000`. -/
theorem sum_digits_linear_ne_digit_sum_ref_witness :
    (10000 : Int) ≤ 10000 ∧ (10000 : Int) ≤ INT_MAX ∧
      sum_digits_linear 10000 ≠ (digit_sum_ref (Int.toNat 10000) : Int) :=
  ⟨by decide, by decide,
    (sum_digits_linear_ne_digit_sum_ref 10000 (by decide) (by decide)).1⟩

/-- C5: the sample values: `sum_digits_linear` returns 0 at 0, 36 at 9999,
10 at 1234 and 5 at 5000. -/
theorem sum_digits_linear_samples :
    sum_digits_linear 0 = 0 ∧ sum_digits_linear 9999 = 36 ∧
      sum_digits_linear 1234 = 10 ∧ sum_digits_linear 5000 = 5 := by
  decide

/-! ## The range check and the two branches of `main` -/

/-- The bitwise `&` of the two comparisons is nonzero exactly when both hold. -/
theorem range_check_ne_zero_iff (num : Int) :
    range_check num ≠ 0 ↔ (0 < num ∧ num < 10000) := by
  unfold range_check c_gt c_lt c_band
  by_cases h1 : num > 0 <;> by_cases h2 : num < 10000 <;> simp [h1, h2] <;> decide

/-- The two branches of `main` on a parsed integer `v`, in terms of the `int`
that `num` holds after the read. -/
theorem main_some (v : Int) :
    main (some v) =
      if 0 < wrap32 v ∧ wrap32 v < 10000 then accepted (wrap32 v) else rejected := by
  by_cases h : 0 < wrap32 v ∧ wrap32 v < 10000
  · have hc := (range_check_ne_zero_iff (wrap32 v)).2 h
    rw [if_pos h]
    simp [main, scanf_d, hc, call_sum_digits_linear, printf, World.init, accepted]
  · have hc : ¬ (range_check (wrap32 v) ≠ 0) :=
      fun hn => h ((range_check_ne_zero_iff (wrap32 v)).1 hn)
    simp only [ne_eq, not_not] at hc
    rw [if_neg h]
    simp [main, scanf_d, hc, printf, World.init, rejected]

/-- The branch of `main` taken by a value inside the range. -/
theorem main_of_in_range (x : Int) (h : 0 < x ∧ x < 10000) : main (some x) = accepted x := by
  have hw : wrap32 x = x :=
    wrap32_of_range x (by unfold INT_MIN; omega) (by unfold INT_MAX; omega)
  rw [main_some, hw, if_pos h]

/-- The branch of `main` taken by a 32-bit value outside the range. -/
theorem main_of_out_of_range (x : Int) (h1 : INT_MIN ≤ x) (h2 : x ≤ INT_MAX)
    (h : ¬ (0 < x ∧ x < 10000)) : main (some x) = rejected := by
  rw [main_some, wrap32_of_range x h1 h2, if_neg h]

/-- The success line and the error line differ, whatever number is printed. -/
theorem sum_line_ne_error_line (n : Int) : prompt ++ sum_line n ≠ prompt ++ error_line := by
  intro h
  have h1 := congrArg String.data h
  simp only [String.data_append] at h1
  have h2 := List.append_cancel_left h1
  unfold sum_line at h2
  simp only [String.data_append, List.append_assoc] at h2
  have h3 := congrArg List.head? h2
  simp [sum_msg, error_line] at h3

/-- The three quotients of the source, on a 32-bit `x`: the subtraction of the
remainder and the division stay in range and are exact. -/
theorem c_div_c_sub_c_mod (x m : Int) (h1 : INT_MIN ≤ x) (h2 : x ≤ INT_MAX)
    (hm : m = 10 ∨ m = 100 ∨ m = 1000) :
    c_sub x (c_mod x m) = x - Int.tmod x m ∧
      c_div (c_sub x (c_mod x m)) m = Int.tdiv x m := by
  unfold INT_MIN at h1
  unfold INT_MAX at h2
  have w : ∀ n : Int, -2147483648 ≤ n → n ≤ 2147483647 → wrap32 n = n := by
    intro n a b
    unfold wrap32
    omega
  have key : ∀ k : Int, k ≠ 0 →
      ((0 ≤ x ∧ 0 ≤ Int.tdiv x k ∧ Int.tdiv x k ≤ x ∧ 0 ≤ Int.tmod x k ∧ Int.tmod x k ≤ x) ∨
       (x < 0 ∧ x ≤ Int.tdiv x k ∧ Int.tdiv x k ≤ 0 ∧ x ≤ Int.tmod x k ∧ Int.tmod x k ≤ 0)) →
      c_sub x (c_mod x k) = x - Int.tmod x k ∧
        c_div (c_sub x (c_mod x k)) k = Int.tdiv x k := by
    intro k hk hb
    have e1 : c_mod x k = Int.tmod x k := w _ (by omega) (by omega)
    have e2 : c_sub x (c_mod x k) = x - Int.tmod x k := by
      rw [e1]; exact w _ (by omega) (by omega)
    refine ⟨e2, ?_⟩
    rw [e2]
    unfold c_div
    rw [sub_tmod_tdiv x k hk]
    exact w _ (by omega) (by omega)
  rcases hm with rfl | rfl | rfl
  · apply key 10 (by decide)
    rcases tdiv_tmod_cases x 10 (by decide) with c | c <;> omega
  · apply key 100 (by decide)
    rcases tdiv_tmod_cases x 100 (by decide) with c | c <;> omega
  · apply key 1000 (by decide)
    rcases tdiv_tmod_cases x 1000 (by decide) with c | c <;> omega

/-! ## Claims about `main` -/

/-- C2: for every parsed integer `x` with `0 < x < 10000`, the program writes,
after the prompt, exactly the line "The sum of all digits in your number amounts
to: N" and a newline, where N is the decimal rendering of the sum of the base-10
digits of `x`; on the input 1234 the number on that line is 10. -/
theorem main_prints_digit_sum (x : Int) (h0 : 0 < x) (h1 : x < 10000) :
    (main (some x)).stdout =
        "Enter a number from [0-9999]: " ++
          ("The sum of all digits in your number amounts to: " ++
            toString (digit_sum_ref x.toNat) ++ "\n") ∧
      (main (some 1234)).stdout =
        "Enter a number from [0-9999]: The sum of all digits in your number amounts to: 10\n" := by
  refine ⟨?_, by decide⟩
  have hx : (x.toNat : Int) = x := Int.toNat_of_nonneg h0.le
  have hs := sum_digits_linear_of_four_digits x.toNat (by omega)
  rw [hx] at hs
  rw [main_of_in_range x ⟨h0, h1⟩]
  unfold accepted
  rw [hs]
  rfl

/-- The instance of C2 at `x = 42`. -/
theorem main_prints_digit_sum_witness :
    (0 : Int) < 42 ∧ (42 : Int) < 10000 ∧
      (main (some 42)).stdout =
        "Enter a number from [0-9999]: " ++
          ("The sum of all digits in your number amounts to: " ++
            toString (digit_sum_ref (Int.toNat 42)) ++ "\n") :=
  ⟨by decide, by decide, (main_prints_digit_sum 42 (by decide) (by decide)).1⟩

/-- C3: for every parsed integer `x` that an `int` holds, the program reports
"Input error" exactly when `x` is not in the open range `0 < x < 10000`, and it
prints the computed sum exactly when `x` is in that range; 0 and 10000 are both
rejected. -/
theorem main_input_error_iff (x : Int) (h1 : INT_MIN ≤ x) (h2 : x ≤ INT_MAX) :
    ((main (some x)).stdout = "Enter a number from [0-9999]: Input error\n" ↔
        ¬ (0 < x ∧ x < 10000)) ∧
      ((main (some x)).stdout = prompt ++ sum_line (sum_digits_linear x) ↔
        (0 < x ∧ x < 10000)) ∧
      (main (some 0)).stdout = "Enter a number from [0-9999]: Input error\n" ∧
      (main (some 10000)).stdout = "Enter a number from [0-9999]: Input error\n" := by
  have he : "Enter a number from [0-9999]: Input error\n" = prompt ++ error_line := by decide
  rw [he]
  refine ⟨?_, ?_, by decide, by decide⟩
  · constructor
    · intro h hr
      rw [main_of_in_range x hr] at h
      exact sum_line_ne_error_line _ h
    · intro h
      rw [main_of_out_of_range x h1 h2 h]
      rfl
  · constructor
    · intro h
      by_contra hr
      rw [main_of_out_of_range x h1 h2 hr] at h
      exact sum_line_ne_error_line _ h.symm
    · intro h
      rw [main_of_in_range x h]
      rfl

/-- The instance of C3 at `x = 0`, the excluded lower end of the range. -/
theorem main_input_error_iff_witness :
    INT_MIN ≤ 0 ∧ 0 ≤ INT_MAX ∧
      ((main (some 0)).stdout = "Enter a number from [0-9999]: Input error\n" ↔
        ¬ ((0 : Int) < 0 ∧ (0 : Int) < 10000)) :=
  ⟨by decide, by decide, (main_input_error_iff 0 (by decide) (by decide)).1⟩

/-- C6: any two parsed integers held by an `int` that fail the range check end
the program in the same world: the output is the prompt followed by the line
"Input error", whatever the values, and `sum_digits_linear` has not been
called. -/
theorem main_rejected_identical (x y : Int)
    (hx1 : INT_MIN ≤ x) (hx2 : x ≤ INT_MAX) (hy1 : INT_MIN ≤ y) (hy2 : y ≤ INT_MAX)
    (hx : x ≤ 0 ∨ 10000 ≤ x) (hy : y ≤ 0 ∨ 10000 ≤ y) :
    main (some x) = main (some y) ∧
      main (some x) =
        { stdout := "Enter a number from [0-9999]: Input error\n", calls := [] } ∧
      main (some y) =
        { stdout := "Enter a number from [0-9999]: Input error\n", calls := [] } := by
  have ex := main_of_out_of_range x hx1 hx2 (by omega)
  have ey := main_of_out_of_range y hy1 hy2 (by omega)
  have hr : rejected =
      { stdout := "Enter a number from [0-9999]: Input error\n", calls := [] } := by decide
  rw [ex, ey]
  exact ⟨rfl, hr, hr⟩

/-- The instance of C6 at the inputs -5 and 10000. -/
theorem main_rejected_identical_witness :
    (INT_MIN ≤ -5 ∧ -5 ≤ INT_MAX) ∧ (INT_MIN ≤ 10000 ∧ 10000 ≤ INT_MAX) ∧
      ((-5 : Int) ≤ 0 ∨ (10000 : Int) ≤ -5) ∧ ((10000 : Int) ≤ 0 ∨ (10000 : Int) ≤ 10000) ∧
      main (some (-5)) = main (some 10000) ∧
      main (some (-5)) =
        { stdout := "Enter a number from [0-9999]: Input error\n", calls := [] } ∧
      main (some 10000) =
        { stdout := "Enter a number from [0-9999]: Input error\n", calls := [] } :=
  ⟨⟨by decide, by decide⟩, ⟨by decide, by decide⟩, by decide, by decide,
    main_rejected_identical (-5) 10000 (by decide) (by decide) (by decide) (by decide)
      (by decide) (by decide)⟩

/-- C7: when the read parses no integer, the variable `num` keeps its initial
value 0, the range check fails on it, and the program reports "Input error"
without calling `sum_digits_linear`. -/
theorem main_no_parse :
    scanf_d none 0 = 0 ∧ range_check 0 = 0 ∧
      main none =
        { stdout := "Enter a number from [0-9999]: Input error\n", calls := [] } := by
  decide

/-- C8: on every 32-bit `x` and for each `m` among 10, 100 and 1000, the value
`x - x%m` that the code computes is a multiple of `m` and its quotient by `m` is
the truncating quotient `x/m`; hence `sum_digits_linear x` is
`x - 9 * (x/10 + x/100 + x/1000)` with the division of C, and for `x ≥ 0` also
with the division that rounds down. -/
theorem sum_digits_linear_closed_form (x : Int) (h1 : INT_MIN ≤ x) (h2 : x ≤ INT_MAX) :
    (∀ m : Int, m = 10 ∨ m = 100 ∨ m = 1000 →
        m ∣ c_sub x (c_mod x m) ∧ c_div (c_sub x (c_mod x m)) m = Int.tdiv x m) ∧
      sum_digits_linear x = x - 9 * (Int.tdiv x 10 + Int.tdiv x 100 + Int.tdiv x 1000) ∧
      (0 ≤ x →
        sum_digits_linear x = x - 9 * (Int.fdiv x 10 + Int.fdiv x 100 + Int.fdiv x 1000)) := by
  refine ⟨?_, sum_digits_linear_closed x h1 h2, ?_⟩
  · intro m hm
    obtain ⟨e1, e2⟩ := c_div_c_sub_c_mod x m h1 h2 hm
    refine ⟨?_, e2⟩
    rw [e1]
    refine ⟨Int.tdiv x m, ?_⟩
    have := Int.tmod_add_tdiv x m
    omega
  · intro hx
    rw [sum_digits_linear_closed x h1 h2, Int.fdiv_eq_tdiv hx (by decide),
      Int.fdiv_eq_tdiv hx (by decide), Int.fdiv_eq_tdiv hx (by decide)]

/-- The instance of C8 at `x = -1234`, a negative dividend. -/
theorem sum_digits_linear_closed_form_witness :
    INT_MIN ≤ -1234 ∧ -1234 ≤ INT_MAX ∧
      sum_digits_linear (-1234) =
        -1234 - 9 * (Int.tdiv (-1234) 10 + Int.tdiv (-1234) 100 + Int.tdiv (-1234) 1000) :=
  ⟨by decide, by decide, (sum_digits_linear_closed_form (-1234) (by decide) (by decide)).2.1⟩

/-- C9: the bitwise `&` of the range check has no bitwise effect: for every
`num`, `num>0 & num<10000` is nonzero exactly when `num > 0` and `num < 10000`
both hold, and it has the very value of the short-circuit `num>0 && num<10000`. -/
theorem range_check_is_logical_and (num : Int) :
    (range_check num ≠ 0 ↔ (num > 0 ∧ num < 10000)) ∧
      range_check num = c_logand (c_gt num 0) (c_lt num 10000) := by
  refine ⟨range_check_ne_zero_iff num, ?_⟩
  unfold range_check c_gt c_lt c_band c_logand
  by_cases h1 : num > 0 <;> by_cases h2 : num < 10000 <;> simp [h1, h2] <;> decide

/-- Cancellation of a common beginning of two strings. -/
theorem string_append_cancel_left (p a b : String) (h : p ++ a = p ++ b) : a = b := by
  have h1 := congrArg String.data h
  simp only [String.data_append] at h1
  exact String.ext (List.append_cancel_left h1)

/-- The value printed for an accepted input lies between 1 and 36. -/
theorem sum_digits_linear_bounds (x : Int) (h : 0 < x ∧ x < 10000) :
    1 ≤ sum_digits_linear x ∧ sum_digits_linear x ≤ 36 := by
  have hn : x.toNat < 10000 := by omega
  have hp : 0 < x.toNat := by omega
  have hx : (x.toNat : Int) = x := Int.toNat_of_nonneg h.1.le
  rw [← hx, sum_digits_linear_of_four_digits _ hn, digit_sum_ref_four _ hn]
  generalize x.toNat = n at hn hp
  have e2 : n / 10 / 10 = n / 100 := by omega
  have e3 : n / 100 / 10 = n / 1000 := by omega
  have e4 : n / 1000 / 10 = 0 := by omega
  have hb : 1 ≤ n % 10 + n / 10 % 10 + n / 100 % 10 + n / 1000 % 10 ∧
      n % 10 + n / 10 % 10 + n / 100 % 10 + n / 1000 % 10 ≤ 36 := by omega
  exact_mod_cast hb

/-- The success line for a value between 1 and 36 holds one newline, its last
character. -/
theorem sum_line_one_newline (n : Int) (h : 1 ≤ n ∧ n ≤ 36) :
    (sum_line n).data.count '\n' = 1 := by
  obtain ⟨h1, h2⟩ := h
  interval_cases n <;> decide

/-- C10: for every input, the complete standard output is the fixed prompt
followed by exactly one result line: either the line with the sum or the line
"Input error", never both; that line holds a single newline; the prompt is the
same for every input. -/
theorem main_output_shape (input : Option Int) :
    ∃! line : String,
      (main input).stdout = "Enter a number from [0-9999]: " ++ line ∧
      ((∃ n : Int, line =
            "The sum of all digits in your number amounts to: " ++ fmt_d n ++ "\n") ∨
          line = "Input error\n") ∧
      ¬ ((∃ n : Int, line =
            "The sum of all digits in your number amounts to: " ++ fmt_d n ++ "\n") ∧
          line = "Input error\n") ∧
      line.data.count '\n' = 1 := by
  have excl : ∀ line : String, ¬ ((∃ n : Int, line =
      "The sum of all digits in your number amounts to: " ++ fmt_d n ++ "\n") ∧
      line = "Input error\n") := by
    rintro line ⟨⟨n, hn⟩, he⟩
    apply sum_line_ne_error_line n
    show prompt ++ sum_line n = prompt ++ error_line
    have : sum_line n = error_line := by
      show "The sum of all digits in your number amounts to: " ++ fmt_d n ++ "\n"
        = "Input error\n"
      rw [← hn, he]
    rw [this]
  have uniq : ∀ a b : String,
      (main input).stdout = "Enter a number from [0-9999]: " ++ a →
      (main input).stdout = "Enter a number from [0-9999]: " ++ b → b = a := by
    intro a b ha hb
    exact string_append_cancel_left _ _ _ (hb.symm.trans ha)
  have rej : ∃! line : String,
      rejected.stdout = "Enter a number from [0-9999]: " ++ line ∧
      ((∃ n : Int, line =
            "The sum of all digits in your number amounts to: " ++ fmt_d n ++ "\n") ∨
          line = "Input error\n") ∧
      ¬ ((∃ n : Int, line =
            "The sum of all digits in your number amounts to: " ++ fmt_d n ++ "\n") ∧
          line = "Input error\n") ∧
      line.data.count '\n' = 1 := by
    refine ⟨"Input error\n", ⟨by decide, Or.inr rfl, excl _, by decide⟩, ?_⟩
    rintro b ⟨hb, -⟩
    exact string_append_cancel_left _ _ _ hb.symm
  cases input with
  | none =>
    have hm : main none = rejected := by decide
    rw [hm]
    exact rej
  | some x =>
    rw [main_some]
    by_cases hr : 0 < wrap32 x ∧ wrap32 x < 10000
    · rw [if_pos hr]
      refine ⟨sum_line (sum_digits_linear (wrap32 x)), ⟨rfl, Or.inl ⟨_, rfl⟩, excl _,
        sum_line_one_newline _ (sum_digits_linear_bounds (wrap32 x) hr)⟩, ?_⟩
      rintro b ⟨hb, -⟩
      exact string_append_cancel_left _ _ _ hb.symm
    · rw [if_neg hr]
      exact rej

/-! ## Overflow, range of the result, and the residue modulo 9 -/

/-- A representable value is the result of a checked operation. -/
theorem checked_of_range (n : Int) (h : INT_MIN ≤ n ∧ n ≤ INT_MAX) : checked n = some n := by
  unfold checked
  rw [if_pos h]

/-- C11: for every 32-bit `x`, `INT_MIN` and `INT_MAX` included, every value
that the evaluation of `sum_digits_linear x` goes through lies in the 32-bit
range and no divisor is zero: the evaluation that fails on overflow and on
division by zero succeeds, and both it and the 32-bit function return the value
of the expression over the unbounded integers. -/
theorem sum_digits_linear_no_overflow (x : Int) (h1 : INT_MIN ≤ x) (h2 : x ≤ INT_MAX) :
    (∀ v ∈ intermediates x, INT_MIN ≤ v ∧ v ≤ INT_MAX) ∧
      sum_digits_linear_checked x = some (sum_digits_linear_ideal x) ∧
      sum_digits_linear x = sum_digits_linear_ideal x := by
  have q10 := sub_tmod_tdiv x 10 (by decide)
  have q100 := sub_tmod_tdiv x 100 (by decide)
  have q1000 := sub_tmod_tdiv x 1000 (by decide)
  have c10 := tdiv_tmod_cases x 10 (by decide)
  have c100 := tdiv_tmod_cases x 100 (by decide)
  have c1000 := tdiv_tmod_cases x 1000 (by decide)
  have hall : ∀ v ∈ intermediates x, INT_MIN ≤ v ∧ v ≤ INT_MAX := by
    intro v hv
    simp only [intermediates, sum_digits_linear_ideal, List.mem_cons, List.mem_singleton,
      List.not_mem_nil, or_false] at hv
    unfold INT_MIN INT_MAX at *
    rcases hv with h | h | h | h | h | h | h | h | h | h | h | h | h <;>
      (subst h; constructor <;> omega)
  refine ⟨hall, ?_, sum_digits_linear_exact x h1 h2⟩
  have mem : ∀ v, v ∈ intermediates x → checked v = some v :=
    fun v hv => checked_of_range v (hall v hv)
  have t10 : checked (Int.tdiv x 10) = some (Int.tdiv x 10) := by
    rw [← q10]; exact mem _ (by simp [intermediates])
  have t100 : checked (Int.tdiv x 100) = some (Int.tdiv x 100) := by
    rw [← q100]; exact mem _ (by simp [intermediates])
  have t1000 : checked (Int.tdiv x 1000) = some (Int.tdiv x 1000) := by
    rw [← q1000]; exact mem _ (by simp [intermediates])
  have r10 : ck_mod x 10 = some (Int.tmod x 10) := by
    unfold ck_mod
    rw [if_neg (by decide), t10, Option.some_bind]
    exact mem _ (by simp [intermediates])
  have r100 : ck_mod x 100 = some (Int.tmod x 100) := by
    unfold ck_mod
    rw [if_neg (by decide), t100, Option.some_bind]
    exact mem _ (by simp [intermediates])
  have r1000 : ck_mod x 1000 = some (Int.tmod x 1000) := by
    unfold ck_mod
    rw [if_neg (by decide), t1000, Option.some_bind]
    exact mem _ (by simp [intermediates])
  have s10 : ck_sub x (Int.tmod x 10) = some (x - Int.tmod x 10) :=
    mem _ (by simp [intermediates])
  have s100 : ck_sub x (Int.tmod x 100) = some (x - Int.tmod x 100) :=
    mem _ (by simp [intermediates])
  have s1000 : ck_sub x (Int.tmod x 1000) = some (x - Int.tmod x 1000) :=
    mem _ (by simp [intermediates])
  have d10 : ck_div (x - Int.tmod x 10) 10 = some (Int.tdiv (x - Int.tmod x 10) 10) := by
    unfold ck_div
    rw [if_neg (by decide)]
    exact mem _ (by simp [intermediates])
  have d100 : ck_div (x - Int.tmod x 100) 100 = some (Int.tdiv (x - Int.tmod x 100) 100) := by
    unfold ck_div
    rw [if_neg (by decide)]
    exact mem _ (by simp [intermediates])
  have d1000 :
      ck_div (x - Int.tmod x 1000) 1000 = some (Int.tdiv (x - Int.tmod x 1000) 1000) := by
    unfold ck_div
    rw [if_neg (by decide)]
    exact mem _ (by simp [intermediates])
  have a1 : ck_add (Int.tdiv (x - Int.tmod x 10) 10) (Int.tdiv (x - Int.tmod x 100) 100) =
      some (Int.tdiv (x - Int.tmod x 10) 10 + Int.tdiv (x - Int.tmod x 100) 100) :=
    mem _ (by simp [intermediates])
  have a2 : ck_add (Int.tdiv (x - Int.tmod x 10) 10 + Int.tdiv (x - Int.tmod x 100) 100)
      (Int.tdiv (x - Int.tmod x 1000) 1000) =
      some (Int.tdiv (x - Int.tmod x 10) 10 + Int.tdiv (x - Int.tmod x 100) 100
        + Int.tdiv (x - Int.tmod x 1000) 1000) :=
    mem _ (by simp [intermediates])
  have p9 : ck_mul (Int.tdiv (x - Int.tmod x 10) 10 + Int.tdiv (x - Int.tmod x 100) 100
        + Int.tdiv (x - Int.tmod x 1000) 1000) 9 =
      some ((Int.tdiv (x - Int.tmod x 10) 10 + Int.tdiv (x - Int.tmod x 100) 100
        + Int.tdiv (x - Int.tmod x 1000) 1000) * 9) :=
    mem _ (by simp [intermediates])
  have hlast : sum_digits_linear_ideal x ∈ intermediates x := by simp [intermediates]
  have fin : ck_sub x ((Int.tdiv (x - Int.tmod x 10) 10 + Int.tdiv (x - Int.tmod x 100) 100
        + Int.tdiv (x - Int.tmod x 1000) 1000) * 9) = some (sum_digits_linear_ideal x) :=
    mem _ hlast
  unfold sum_digits_linear_checked
  rw [r10, Option.some_bind, s10, Option.some_bind, d10, Option.some_bind,
    r100, Option.some_bind, s100, Option.some_bind, d100, Option.some_bind,
    a1, Option.some_bind,
    r1000, Option.some_bind, s1000, Option.some_bind, d1000, Option.some_bind,
    a2, Option.some_bind, p9, Option.some_bind, fin]

/-- The instance of C11 at `x = INT_MIN`. -/
theorem sum_digits_linear_no_overflow_witness :
    INT_MIN ≤ -2147483648 ∧ -2147483648 ≤ INT_MAX ∧
      sum_digits_linear_checked (-2147483648) =
        some (sum_digits_linear_ideal (-2147483648)) ∧
      sum_digits_linear (-2147483648) = sum_digits_linear_ideal (-2147483648) :=
  ⟨by decide, by decide,
    (sum_digits_linear_no_overflow (-2147483648) (by decide) (by decide)).2⟩

/-- C12: for every integer `x` accepted by the range check, `1 ≤ x ≤ 9999`, the
program prints the value `N = sum_digits_linear x` on its result line, and that
value satisfies `1 ≤ N ≤ 36`, with `N = 36` exactly for `x = 9999`. -/
theorem main_printed_value_bounds (x : Int) (h0 : 1 ≤ x) (h1 : x ≤ 9999) :
    (main (some x)).stdout =
        "Enter a number from [0-9999]: " ++
          ("The sum of all digits in your number amounts to: " ++
            fmt_d (sum_digits_linear x) ++ "\n") ∧
      1 ≤ sum_digits_linear x ∧ sum_digits_linear x ≤ 36 ∧
      (sum_digits_linear x = 36 ↔ x = 9999) := by
  have hr : 0 < x ∧ x < 10000 := ⟨by omega, by omega⟩
  have hb := sum_digits_linear_bounds x hr
  refine ⟨?_, hb.1, hb.2, ?_⟩
  · rw [main_of_in_range x hr]
    rfl
  · constructor
    · intro h36
      have hn : x.toNat < 10000 := by omega
      have hx : (x.toNat : Int) = x := Int.toNat_of_nonneg (by omega)
      rw [← hx, sum_digits_linear_of_four_digits _ hn, digit_sum_ref_four _ hn] at h36
      rw [← hx]
      generalize x.toNat = n at hn h36
      have e2 : n / 10 / 10 = n / 100 := by omega
      have e3 : n / 100 / 10 = n / 1000 := by omega
      have e4 : n / 1000 / 10 = 0 := by omega
      have h36n : n % 10 + n / 10 % 10 + n / 100 % 10 + n / 1000 % 10 = 36 := by
        exact_mod_cast h36
      have : n = 9999 := by omega
      exact_mod_cast this
    · intro h
      subst h
      decide

/-- The instance of C12 at `x = 9999`. -/
theorem main_printed_value_bounds_witness :
    (1 : Int) ≤ 9999 ∧ (9999 : Int) ≤ 9999 ∧
      (main (some 9999)).stdout =
        "Enter a number from [0-9999]: " ++
          ("The sum of all digits in your number amounts to: " ++
            fmt_d (sum_digits_linear 9999) ++ "\n") ∧
      1 ≤ sum_digits_linear 9999 ∧ sum_digits_linear 9999 ≤ 36 ∧
      (sum_digits_linear 9999 = 36 ↔ (9999 : Int) = 9999) :=
  ⟨by decide, by decide, main_printed_value_bounds 9999 (by decide) (by decide)⟩

/-- C13: for every 32-bit `x`, in the accepted range or not, `sum_digits_linear x`
is congruent to `x` modulo 9, that is `x - sum_digits_linear x` is a multiple
of 9; and for every `x ≥ 0` it lies between 0 and `x`. -/
theorem sum_digits_linear_mod_nine (x : Int) (h1 : INT_MIN ≤ x) (h2 : x ≤ INT_MAX) :
    (9 : Int) ∣ x - sum_digits_linear x ∧
      sum_digits_linear x % 9 = x % 9 ∧
      (0 ≤ x → 0 ≤ sum_digits_linear x ∧ sum_digits_linear x ≤ x) := by
  have hc := sum_digits_linear_closed x h1 h2
  have c10 := tdiv_tmod_cases x 10 (by decide)
  have c100 := tdiv_tmod_cases x 100 (by decide)
  have c1000 := tdiv_tmod_cases x 1000 (by decide)
  refine ⟨⟨Int.tdiv x 10 + Int.tdiv x 100 + Int.tdiv x 1000, by omega⟩, by omega, ?_⟩
  intro hx
  constructor <;> omega

/-- The instance of C13 at `x = INT_MAX`. -/
theorem sum_digits_linear_mod_nine_witness :
    INT_MIN ≤ 2147483647 ∧ 2147483647 ≤ INT_MAX ∧
      (9 : Int) ∣ 2147483647 - sum_digits_linear 2147483647 ∧
      sum_digits_linear 2147483647 % 9 = 2147483647 % 9 ∧
      ((0 : Int) ≤ 2147483647 →
        0 ≤ sum_digits_linear 2147483647 ∧ sum_digits_linear 2147483647 ≤ 2147483647) :=
  ⟨by decide, by decide, sum_digits_linear_mod_nine 2147483647 (by decide) (by decide)⟩

end Legendre
